import Mathlib

/-!
Verification of the ESP8266 OTA update server (`src/server.js`).

The development shallowly embeds the server's pure logic and state
transitions:

* `compareVersions` (src/server.js lines 129-143) together with a model of
  the JavaScript `Number` string conversion it relies on via
  `v.split('.').map(Number)` and `parts[i] || 0`;
* the `GET /check` handler (lines 61-79), the `GET /version` handler
  (lines 51-58), the `GET /firmware` handler (lines 82-99) with a full
  MD5 implementation mirroring `getMD5` (lines 146-152);
* the `POST /update` handler (lines 102-126) including the fact that the
  multer disk storage (lines 24-32) writes the uploaded bytes to
  `firmware/firmware.bin` before the route handler validates the request;
* the sequence of on-disk contents observable while the firmware file is
  rewritten in place (no temporary file and no atomic rename exist in the
  source).

Numeric values are modelled exactly (as rationals); the IEEE-754 rounding
of JavaScript numbers is elided, which is faithful for all version segments
of fewer than sixteen significant digits.
-/

/-! ### JavaScript numbers

A JavaScript number produced by `Number(string)`: `NaN`, an infinity, or a
finite value (modelled as an exact rational). -/

inductive JSNum where
  | nan : JSNum
  | inf : JSNum
  | negInf : JSNum
  | fin : ℚ → JSNum
deriving DecidableEq

/-- The characters `Number` trims before parsing: the ASCII whitespace and
line-terminator characters plus no-break space, the Unicode line
separators and the byte-order mark (a representative subset of the
ECMAScript `StrWhiteSpace` characters). -/
def wsChars : List Char :=
  [' ', '\t', '\n', '\r', Char.ofNat 11, Char.ofNat 12, Char.ofNat 160,
   Char.ofNat 0x2028, Char.ofNat 0x2029, Char.ofNat 0xfeff]

def wsChar (c : Char) : Bool := decide (c ∈ wsChars)

def trimWs (l : List Char) : List Char :=
  ((l.dropWhile wsChar).reverse.dropWhile wsChar).reverse

/-- Value of a decimal digit string (most significant digit first). -/
def digitsVal (l : List Char) : ℕ :=
  l.foldl (fun n c => 10 * n + (c.toNat - 48)) 0

/-- Value of a digit in radix up to 16; 16 marks a character that is a digit
in no supported radix. -/
def radixDigitVal (c : Char) : ℕ :=
  if '0' ≤ c ∧ c ≤ '9' then c.toNat - 48
  else if 'a' ≤ c ∧ c ≤ 'f' then c.toNat - 87
  else if 'A' ≤ c ∧ c ≤ 'F' then c.toNat - 55
  else 16

def isRadixDigit (b : ℕ) (c : Char) : Bool := decide (radixDigitVal c < b)

def radixVal (b : ℕ) (l : List Char) : ℕ :=
  l.foldl (fun n c => b * n + radixDigitVal c) 0

/-- A `0x`/`0o`/`0b` prefixed literal body: all digits of the radix, nonempty. -/
def parseRadix (b : ℕ) (l : List Char) : JSNum :=
  if l ≠ [] ∧ l.all (isRadixDigit b) then JSNum.fin (radixVal b l) else JSNum.nan

def applySign (neg : Bool) : JSNum → JSNum
  | JSNum.fin q => JSNum.fin (if neg then -q else q)
  | JSNum.inf => if neg then JSNum.negInf else JSNum.inf
  | JSNum.negInf => if neg then JSNum.inf else JSNum.negInf
  | JSNum.nan => JSNum.nan

/-- The exponent part following `e`/`E`: optional sign and a nonempty digit
string consuming the rest of the input. -/
def parseExpTail (q : ℚ) (l : List Char) : JSNum :=
  let p : Bool × List Char :=
    match l with
    | '+' :: r => (false, r)
    | '-' :: r => (true, r)
    | _ => (false, l)
  let ds := p.2.takeWhile Char.isDigit
  if ds = [] ∨ p.2.dropWhile Char.isDigit ≠ [] then JSNum.nan
  else JSNum.fin (q * (10 : ℚ) ^ (if p.1 then -(digitsVal ds : ℤ) else (digitsVal ds : ℤ)))

/-- A decimal literal after its leading digits have been taken: `ip` are the
integer-part digits (possibly none), `rest` the remaining characters, which
may be a fraction part, an exponent part, or nothing. -/
def parseAfterDigits (ip : List Char) (rest : List Char) : JSNum :=
  match rest with
  | [] => if ip = [] then JSNum.nan else JSNum.fin (digitsVal ip)
  | '.' :: r2 =>
    let fs := r2.takeWhile Char.isDigit
    let r3 := r2.dropWhile Char.isDigit
    if ip = [] ∧ fs = [] then JSNum.nan
    else
      let q : ℚ := (digitsVal ip : ℚ) + (digitsVal fs : ℚ) / (10 : ℚ) ^ fs.length
      match r3 with
      | [] => JSNum.fin q
      | 'e' :: r4 => parseExpTail q r4
      | 'E' :: r4 => parseExpTail q r4
      | _ => JSNum.nan
  | 'e' :: r2 => if ip = [] then JSNum.nan else parseExpTail (digitsVal ip : ℚ) r2
  | 'E' :: r2 => if ip = [] then JSNum.nan else parseExpTail (digitsVal ip : ℚ) r2
  | _ => JSNum.nan

/-- An unsigned decimal numeric literal: `Infinity` or a decimal literal. -/
def parseUnsignedDec (l : List Char) : JSNum :=
  if l = "Infinity".data then JSNum.inf
  else parseAfterDigits (l.takeWhile Char.isDigit) (l.dropWhile Char.isDigit)

/-- The general `StrNumericLiteral` grammar: an optional sign on a decimal
literal, or an unsigned radix-prefixed integer literal. -/
def generalParse (l : List Char) : JSNum :=
  match l with
  | '+' :: r => applySign false (parseUnsignedDec r)
  | '-' :: r => applySign true (parseUnsignedDec r)
  | '0' :: 'x' :: r => parseRadix 16 r
  | '0' :: 'X' :: r => parseRadix 16 r
  | '0' :: 'o' :: r => parseRadix 8 r
  | '0' :: 'O' :: r => parseRadix 8 r
  | '0' :: 'b' :: r => parseRadix 2 r
  | '0' :: 'B' :: r => parseRadix 2 r
  | _ => parseUnsignedDec l

/-- A trimmed, nonempty numeric literal. A nonempty plain digit sequence is
the `DecimalDigits` production with value `digitsVal`; every other shape
(sign, radix prefix, fraction, exponent, `Infinity`, malformed input) goes
through the general grammar. -/
def parseNum (l : List Char) : JSNum :=
  if l ≠ [] ∧ l.all Char.isDigit then JSNum.fin (digitsVal l) else generalParse l

/-- `Number(s)` on a string: trim whitespace, the empty remainder is `0`,
otherwise parse the numeric literal grammar (`NaN` on failure). -/
def jsNumChars (l : List Char) : JSNum :=
  let t := trimWs l
  if t = [] then JSNum.fin 0 else parseNum t

/-! ### The version comparator (src/server.js lines 129-143) -/

/-- `String.prototype.split('.')`: the empty string yields one empty
segment, separators at the ends yield empty segments. -/
def splitDot : List Char → List (List Char)
  | [] => [[]]
  | c :: cs =>
    if c = '.' then [] :: splitDot cs
    else
      match splitDot cs with
      | [] => [[c]]
      | s :: ss => (c :: s) :: ss

/-- `v.split('.').map(Number)` (line 132/133). -/
def segNums (v : String) : List JSNum := (splitDot v.data).map jsNumChars

/-- `x || 0` on a number `x` (lines 136-137): `NaN` (and `0` itself) are
falsy and give `0`; every other number is kept. -/
def collapse : JSNum → JSNum
  | JSNum.nan => JSNum.fin 0
  | x => x

/-- The `<` relation on JavaScript numbers: false whenever `NaN` is
involved, the infinities at the ends, exact comparison on finite values. -/
def jsLt : JSNum → JSNum → Bool
  | JSNum.nan, _ => false
  | _, JSNum.nan => false
  | JSNum.negInf, JSNum.negInf => false
  | JSNum.negInf, _ => true
  | _, JSNum.negInf => false
  | JSNum.inf, _ => false
  | JSNum.fin _, JSNum.inf => true
  | JSNum.fin a, JSNum.fin b => decide (a < b)

/-- One iteration of the comparison loop (lines 139-141): `num1 > num2`
returns `1`, `num1 < num2` returns `-1`, otherwise the loop continues with
`k`. JavaScript `a > b` on numbers is `b < a`. -/
def cmpStep (n1 n2 : JSNum) (k : ℤ) : ℤ :=
  if jsLt n2 n1 then 1 else if jsLt n1 n2 then -1 else k

/-- The `for` loop of lines 135-142, with the remaining iteration count as
fuel: each iteration reads the current head of each list (`undefined`,
modelled `nan`, past the end — `|| 0` turns it into `0` via `collapse`)
and continues on the tails. -/
def jsCmpLoop : ℕ → List JSNum → List JSNum → ℤ
  | 0, _, _ => 0
  | fuel + 1, xs, ys =>
    cmpStep (collapse (xs.headD JSNum.nan)) (collapse (ys.headD JSNum.nan))
      (jsCmpLoop fuel xs.tail ys.tail)

/-- Truthiness of a JavaScript value that is a string or `undefined`
(`none`): `undefined` and the empty string are falsy. -/
def strTruthy : Option String → Bool
  | none => false
  | some s => decide (s ≠ "")

/-- `compareVersions(v1, v2)` (lines 129-143): `if (!v1 || !v2) return 0`,
then the segment loop over `Math.max(parts1.length, parts2.length)`
indices. `1` is GREATER, `-1` is LESS, `0` is EQUAL. -/
def compareVersions (v1 v2 : Option String) : ℤ :=
  if !strTruthy v1 || !strTruthy v2 then 0
  else
    let parts1 := segNums (v1.getD "")
    let parts2 := segNums (v2.getD "")
    jsCmpLoop (max parts1.length parts2.length) parts1 parts2

/-! ### The comparison algorithm as the specification words it

Stated from the specification's sentences (section 4.1 and claim C1):
split on `.`, parse each segment as a non-negative integer treating
unparseable segments as `0`, and compare numerically left to right with
missing segments on the shorter side treated as `0`. This definition exists
to be compared against `compareVersions`. -/

/-- A segment's value per the specification: its value as a non-negative
integer when it is a (nonempty) decimal digit sequence, otherwise `0`. -/
def specSegVal (l : List Char) : ℕ :=
  if l ≠ [] ∧ l.all Char.isDigit then digitsVal l else 0

def specStep (x y : ℕ) (k : ℤ) : ℤ :=
  if x > y then 1 else if x < y then -1 else k

def specCmpLoop : ℕ → List ℕ → List ℕ → ℤ
  | 0, _, _ => 0
  | fuel + 1, xs, ys => specStep (xs.headD 0) (ys.headD 0) (specCmpLoop fuel xs.tail ys.tail)

def specCompareVersions (a b : String) : ℤ :=
  let parts1 := (splitDot a.data).map specSegVal
  let parts2 := (splitDot b.data).map specSegVal
  specCmpLoop (max parts1.length parts2.length) parts1 parts2

/-- The embedding of a natural number as a finite JavaScript number. -/
def finOfNat (n : ℕ) : JSNum := JSNum.fin (n : ℚ)

/-! ### Server state (the two stores)

`firmware/version.json` holds one JSON record (the VersionStore);
`firmware/firmware.bin` holds the firmware bytes, absent until the first
upload (the BinaryStore). Bytes are modelled as natural numbers below 256. -/

structure VersionRecord where
  version : String
  updatedAt : Option String
  size : Option ℕ
deriving DecidableEq

structure ServerState where
  firmwareBin : Option (List ℕ)
  versionRec : VersionRecord
deriving DecidableEq

/-- The state after bootstrap (lines 19-21): `version.json` is initialised
to `{version: "1.0.0"}` and no binary has been uploaded. -/
def bootState : ServerState := ⟨none, ⟨"1.0.0", none, none⟩⟩

/-- `GET /version` (lines 51-58), success path: the parsed contents of
`version.json`. -/
def versionHandler (st : ServerState) : VersionRecord := st.versionRec

/-- `a || b` on two JavaScript values that are strings or `undefined`
(line 62): the left value when truthy, otherwise the right value. -/
def jsOr (a b : Option String) : Option String :=
  match a with
  | some s => if s = "" then b else some s
  | none => b

structure CheckResponse where
  currentVersion : Option String
  latestVersion : String
  updateAvailable : Bool
deriving DecidableEq

/-- `GET /check` (lines 61-79), success path: the device version is the
`version` query parameter if truthy, else the `x-esp8266-version` header;
`updateAvailable` is `compareVersions(serverVersion, deviceVersion) > 0`;
both versions are echoed back. -/
def checkHandler (serverVersion : String) (queryVersion headerVersion : Option String) :
    CheckResponse :=
  let deviceVersion := jsOr queryVersion headerVersion
  ⟨deviceVersion, serverVersion,
    decide (compareVersions (some serverVersion) deviceVersion > 0)⟩

/-- The `POST /update` response: `ok v n` stands for
`{success: true, message: 'Firmware updated successfully', version: v, size: n}`;
the error constructors stand for the two 400 responses of lines 105-111. -/
inductive UpdateResult where
  | ok (version : String) (size : ℕ)
  | errMissingFile
  | errMissingVersion
deriving DecidableEq

/-- `POST /update` (lines 102-126). The multer disk storage (lines 24-32)
runs before the handler: when a file accompanies the request its bytes are
written to `firmware/firmware.bin` unconditionally. The handler then
rejects a missing file, rejects a falsy version string, and otherwise
overwrites `version.json` with the new version, the current time and the
uploaded byte count. -/
def handleUpdate (now : String) (st : ServerState) (file : Option (List ℕ))
    (version : Option String) : ServerState × UpdateResult :=
  let st1 : ServerState :=
    match file with
    | some bytes => { st with firmwareBin := some bytes }
    | none => st
  match file with
  | none => (st1, UpdateResult.errMissingFile)
  | some bytes =>
    if strTruthy version then
      ({ firmwareBin := some bytes,
         versionRec := ⟨version.getD "", some now, some bytes.length⟩ },
       UpdateResult.ok (version.getD "") bytes.length)
    else (st1, UpdateResult.errMissingVersion)

/-- The consistency invariant of spec section 3: when a blob is present,
the version record's `size` equals its byte length. -/
def sizeConsistent (st : ServerState) : Bool :=
  match st.firmwareBin with
  | none => true
  | some b => decide (st.versionRec.size = some b.length)

/-! ### MD5 (`getMD5`, src/server.js lines 146-152)

A full MD5 implementation over byte lists; 32-bit words are naturals
reduced modulo `2 ^ 32`. -/

def add32 (a b : ℕ) : ℕ := (a + b) % 4294967296

def not32 (a : ℕ) : ℕ := Nat.xor a 4294967295

def rotl32 (x s : ℕ) : ℕ := ((x <<< s) % 4294967296) ||| (x >>> (32 - s))

def md5F (b c d : ℕ) : ℕ := (b &&& c) ||| (not32 b &&& d)

def md5G (b c d : ℕ) : ℕ := (d &&& b) ||| (not32 d &&& c)

def md5H (b c d : ℕ) : ℕ := b ^^^ c ^^^ d

def md5I (b c d : ℕ) : ℕ := c ^^^ (b ||| not32 d)

/-- The 64 sine-derived round constants. -/
def md5K : List ℕ :=
  [0xd76aa478, 0xe8c7b756, 0x242070db, 0xc1bdceee,
   0xf57c0faf, 0x4787c62a, 0xa8304613, 0xfd469501,
   0x698098d8, 0x8b44f7af, 0xffff5bb1, 0x895cd7be,
   0x6b901122, 0xfd987193, 0xa679438e, 0x49b40821,
   0xf61e2562, 0xc040b340, 0x265e5a51, 0xe9b6c7aa,
   0xd62f105d, 0x02441453, 0xd8a1e681, 0xe7d3fbc8,
   0x21e1cde6, 0xc33707d6, 0xf4d50d87, 0x455a14ed,
   0xa9e3e905, 0xfcefa3f8, 0x676f02d9, 0x8d2a4c8a,
   0xfffa3942, 0x8771f681, 0x6d9d6122, 0xfde5380c,
   0xa4beea44, 0x4bdecfa9, 0xf6bb4b60, 0xbebfbc70,
   0x289b7ec6, 0xeaa127fa, 0xd4ef3085, 0x04881d05,
   0xd9d4d039, 0xe6db99e5, 0x1fa27cf8, 0xc4ac5665,
   0xf4292244, 0x432aff97, 0xab9423a7, 0xfc93a039,
   0x655b59c3, 0x8f0ccc92, 0xffeff47d, 0x85845dd1,
   0x6fa87e4f, 0xfe2ce6e0, 0xa3014314, 0x4e0811a1,
   0xf7537e82, 0xbd3af235, 0x2ad7d2bb, 0xeb86d391]

/-- The per-round left-rotation amounts. -/
def md5S : List ℕ :=
  [7, 12, 17, 22, 7, 12, 17, 22, 7, 12, 17, 22, 7, 12, 17, 22,
   5, 9, 14, 20, 5, 9, 14, 20, 5, 9, 14, 20, 5, 9, 14, 20,
   4, 11, 16, 23, 4, 11, 16, 23, 4, 11, 16, 23, 4, 11, 16, 23,
   6, 10, 15, 21, 6, 10, 15, 21, 6, 10, 15, 21, 6, 10, 15, 21]

/-- One of the 64 operations on the state `(a, b, c, d)` for block words
`m`. -/
def md5Round (m : List ℕ) (st : ℕ × ℕ × ℕ × ℕ) (i : ℕ) : ℕ × ℕ × ℕ × ℕ :=
  let f :=
    if i < 16 then md5F st.2.1 st.2.2.1 st.2.2.2
    else if i < 32 then md5G st.2.1 st.2.2.1 st.2.2.2
    else if i < 48 then md5H st.2.1 st.2.2.1 st.2.2.2
    else md5I st.2.1 st.2.2.1 st.2.2.2
  let g :=
    if i < 16 then i
    else if i < 32 then (5 * i + 1) % 16
    else if i < 48 then (3 * i + 5) % 16
    else (7 * i) % 16
  let t := add32 (add32 (add32 st.1 f) (md5K.getD i 0)) (m.getD g 0)
  (st.2.2.2, add32 st.2.1 (rotl32 t (md5S.getD i 0)), st.2.1, st.2.2.1)

/-- Process one 16-word block. -/
def md5Block (st : ℕ × ℕ × ℕ × ℕ) (m : List ℕ) : ℕ × ℕ × ℕ × ℕ :=
  let r := (List.range 64).foldl (md5Round m) st
  (add32 st.1 r.1, add32 st.2.1 r.2.1, add32 st.2.2.1 r.2.2.1, add32 st.2.2.2 r.2.2.2)

/-- MD5 padding: a `0x80` byte, zeros to 56 modulo 64, and the bit length
as eight little-endian bytes. -/
def md5Pad (msg : List ℕ) : List ℕ :=
  let n := msg.length
  msg ++ [128] ++ List.replicate ((119 - n % 64) % 64) 0 ++
    (List.range 8).map (fun i => (8 * n % 18446744073709551616) >>> (8 * i) % 256)

/-- Split into 64-byte blocks. -/
def blocks64 (l : List ℕ) : List (List ℕ)  :=
  if h : l = [] then []
  else l.take 64 :: blocks64 (l.drop 64)
termination_by l.length
decreasing_by
  simp only [List.length_drop]
  exact Nat.sub_lt (List.length_pos.mpr h) (by norm_num)

/-- A 32-bit word from four little-endian bytes. -/
def leWord (bs : List ℕ) : ℕ := bs.foldr (fun b n => b % 256 + 256 * n) 0

def md5Digest (msg : List ℕ) : ℕ × ℕ × ℕ × ℕ :=
  (blocks64 (md5Pad msg)).foldl
    (fun st block => md5Block st ((List.range 16).map (fun i => leWord ((block.drop (4 * i)).take 4))))
    (0x67452301, 0xefcdab89, 0x98badcfe, 0x10325476)

def hexChar (n : ℕ) : Char := if n < 10 then Char.ofNat (48 + n) else Char.ofNat (87 + n)

def byteHex (b : ℕ) : List Char := [hexChar (b / 16 % 16), hexChar (b % 16)]

def wordLEBytes (w : ℕ) : List ℕ := (List.range 4).map (fun i => w >>> (8 * i) % 256)

/-- The lowercase hex digest (the words serialised little-endian, as
`digest('hex')` renders them). -/
def md5Hex (msg : List ℕ) : String :=
  let d := md5Digest msg
  ⟨((wordLEBytes d.1 ++ wordLEBytes d.2.1 ++ wordLEBytes d.2.2.1 ++ wordLEBytes d.2.2.2).map byteHex).flatten⟩

/-- `getMD5(filePath)` (lines 146-152): read the whole file and return the
hex MD5 digest of its bytes. -/
def getMD5 (bytes : List ℕ) : String := md5Hex bytes

/-- The `GET /firmware` response: 404 when the blob is absent, otherwise
the headers set on lines 92-95 (`ok len dispo digest body`: the
`Content-Length`, the `Content-Disposition` value, the `x-MD5` value) and
the streamed body. -/
inductive FirmwareResponse where
  | notFound
  | ok (contentLength : ℕ) (contentDisposition : String) (xMD5 : String) (body : List ℕ)
deriving DecidableEq

/-- `GET /firmware` (lines 82-99). -/
def firmwareHandler (st : ServerState) : FirmwareResponse :=
  match st.firmwareBin with
  | none => FirmwareResponse.notFound
  | some bytes =>
    FirmwareResponse.ok bytes.length "attachment; filename=firmware.bin" (getMD5 bytes) bytes

/-! ### In-place replacement of the firmware file

No temporary file and no rename exist in the source: the multer disk
storage (lines 24-31) opens `firmware/firmware.bin` itself for writing
(truncating it) and appends the uploaded stream chunk by chunk, while
`GET /firmware` (lines 97-98) streams the same path. The contents a
concurrent reader can observe are the old contents, the truncated file,
and every partial concatenation of chunks. -/

def chunkStates : List ℕ → List (List ℕ) → List (List ℕ)
  | acc, [] => [acc]
  | acc, c :: cs => acc :: chunkStates (acc ++ c) cs

/-- The sequence of observable contents of `firmware/firmware.bin` while
`old` is replaced by the concatenation of `chunks`, written in place. -/
def replaceStates (old : List ℕ) (chunks : List (List ℕ)) : List (List ℕ) :=
  old :: chunkStates [] chunks

/-! ### Lemmas about the comparator -/

theorem dropWhile_eq_self_of (p : Char → Bool) (l : List Char)
    (h : ∀ c ∈ l, p c = false) : l.dropWhile p = l := by
  cases l with
  | nil => rfl
  | cons c cs => simp [List.dropWhile_cons, h c (List.mem_cons_self c cs)]

theorem trimWs_id (l : List Char) (h : ∀ c ∈ l, wsChar c = false) : trimWs l = l := by
  unfold trimWs
  rw [dropWhile_eq_self_of _ _ h,
    dropWhile_eq_self_of _ _ (fun c hc => h c (List.mem_reverse.mp hc)),
    List.reverse_reverse]

theorem digit_not_ws {c : Char} (h : c.isDigit = true) : wsChar c = false := by
  apply decide_eq_false
  intro hm
  fin_cases hm <;> exact absurd h (by decide)


theorem jsNumChars_digits (l : List Char) (h : l.all Char.isDigit) :
    jsNumChars l = finOfNat (digitsVal l) := by
  have hws : ∀ c ∈ l, wsChar c = false :=
    fun c hc => digit_not_ws (List.all_eq_true.mp h c hc)
  unfold jsNumChars finOfNat
  rw [trimWs_id l hws]
  cases l with
  | nil => rfl
  | cons c cs =>
    rw [if_neg (by simp)]
    unfold parseNum
    rw [if_pos ⟨by simp, h⟩]

theorem specSegVal_digits (l : List Char) (h : l.all Char.isDigit) :
    specSegVal l = digitsVal l := by
  unfold specSegVal
  rcases eq_or_ne l [] with rfl | hne
  · rfl
  · rw [if_pos ⟨hne, h⟩]

theorem segNums_digits (v : String) (h : ∀ s ∈ splitDot v.data, s.all Char.isDigit) :
    segNums v = ((splitDot v.data).map specSegVal).map finOfNat := by
  unfold segNums
  rw [List.map_map]
  apply List.map_congr_left
  intro s hs
  rw [jsNumChars_digits s (h s hs)]
  simp [Function.comp, specSegVal_digits s (h s hs)]

theorem cmpStep_cast (x y : ℕ) (k : ℤ) :
    cmpStep (finOfNat x) (finOfNat y) k = specStep x y k := by
  simp only [cmpStep, specStep, finOfNat, jsLt, decide_eq_true_eq, Nat.cast_lt, gt_iff_lt]

theorem headD_map_finOfNat (xs : List ℕ) :
    collapse ((xs.map finOfNat).headD JSNum.nan) = finOfNat (xs.headD 0) := by
  cases xs <;> simp [finOfNat, collapse]

theorem tail_map_finOfNat (xs : List ℕ) :
    (xs.map finOfNat).tail = xs.tail.map finOfNat := by
  cases xs <;> simp

theorem jsCmpLoop_map_fin (fuel : ℕ) : ∀ xs ys : List ℕ,
    jsCmpLoop fuel (xs.map finOfNat) (ys.map finOfNat) = specCmpLoop fuel xs ys := by
  induction fuel with
  | zero => intro xs ys; rfl
  | succ f ih =>
    intro xs ys
    simp only [jsCmpLoop, specCmpLoop, headD_map_finOfNat, tail_map_finOfNat, ih]
    exact cmpStep_cast _ _ _

theorem jsLt_asymm {x y : JSNum} (h : jsLt x y = true) : jsLt y x = false := by
  cases x <;> cases y <;> simp_all [jsLt] <;> linarith

theorem jsLt_irrefl (x : JSNum) : jsLt x x = false := by
  cases x <;> simp [jsLt]

theorem cmpStep_neg (n1 n2 : JSNum) (k : ℤ) : cmpStep n1 n2 k = - cmpStep n2 n1 (-k) := by
  unfold cmpStep
  cases h1 : jsLt n2 n1 with
  | false => cases h2 : jsLt n1 n2 <;> simp [h1, h2]
  | true =>
    have h2 := jsLt_asymm h1
    simp [h1, h2]

theorem jsCmpLoop_neg (fuel : ℕ) : ∀ xs ys : List JSNum,
    jsCmpLoop fuel xs ys = - jsCmpLoop fuel ys xs := by
  induction fuel with
  | zero => intro xs ys; simp [jsCmpLoop]
  | succ f ih =>
    intro xs ys
    simp only [jsCmpLoop]
    rw [cmpStep_neg, ih, neg_neg]

theorem jsCmpLoop_refl (fuel : ℕ) : ∀ xs : List JSNum, jsCmpLoop fuel xs xs = 0 := by
  induction fuel with
  | zero => intro xs; rfl
  | succ f ih =>
    intro xs
    simp [jsCmpLoop, cmpStep, jsLt_irrefl, ih]

theorem cmpStep_tri (n1 n2 : JSNum) (k : ℤ) (hk : k = 1 ∨ k = 0 ∨ k = -1) :
    cmpStep n1 n2 k = 1 ∨ cmpStep n1 n2 k = 0 ∨ cmpStep n1 n2 k = -1 := by
  unfold cmpStep
  split_ifs
  · exact Or.inl rfl
  · exact Or.inr (Or.inr rfl)
  · exact hk

theorem jsCmpLoop_tri (fuel : ℕ) : ∀ xs ys : List JSNum,
    jsCmpLoop fuel xs ys = 1 ∨ jsCmpLoop fuel xs ys = 0 ∨ jsCmpLoop fuel xs ys = -1 := by
  induction fuel with
  | zero => intro xs ys; exact Or.inr (Or.inl rfl)
  | succ f ih =>
    intro xs ys
    exact cmpStep_tri _ _ _ (ih _ _)

theorem compareVersions_neg (v1 v2 : Option String) :
    compareVersions v1 v2 = - compareVersions v2 v1 := by
  unfold compareVersions
  cases h1 : strTruthy v1
  · simp [h1]
  · cases h2 : strTruthy v2
    · simp [h1, h2]
    · simp only [h1, h2, Bool.not_true, Bool.or_self, Bool.false_or, if_false]
      rw [Nat.max_comm]
      exact jsCmpLoop_neg _ _ _

theorem compareVersions_refl (v : Option String) : compareVersions v v = 0 := by
  unfold compareVersions
  cases h : strTruthy v
  · simp [h]
  · simp only [h, Bool.not_true, Bool.or_self, if_false]
    exact jsCmpLoop_refl _ _

theorem compareVersions_tri (v1 v2 : Option String) :
    compareVersions v1 v2 = 1 ∨ compareVersions v1 v2 = 0 ∨ compareVersions v1 v2 = -1 := by
  unfold compareVersions
  split_ifs
  · exact Or.inr (Or.inl rfl)
  · exact jsCmpLoop_tri _ _ _

theorem compareVersions_falsyRight (v1 v2 : Option String) (h : strTruthy v2 = false) :
    compareVersions v1 v2 = 0 := by
  unfold compareVersions
  simp [h]

theorem pos_iff_one (c : ℤ) (h : c = 1 ∨ c = 0 ∨ c = -1) : c > 0 ↔ c = 1 := by
  rcases h with rfl | rfl | rfl <;> decide

theorem jsOr_truthy (q h : Option String) (hq : strTruthy q = true) : jsOr q h = q := by
  cases q with
  | none => simp [strTruthy] at hq
  | some s =>
    have hs : s ≠ "" := by simpa [strTruthy] using hq
    simp [jsOr, hs]

theorem jsOr_falsy (q h : Option String) (hq : strTruthy q = false) : jsOr q h = h := by
  cases q with
  | none => rfl
  | some s =>
    have hs : s = "" := by simpa [strTruthy] using hq
    simp [jsOr, hs]

/-! ### The claims -/

/-- C1, counterexample: the claim's algorithm (parse segments as
non-negative integers, unparseable segments treated as `0`) does not
determine `compareVersions` on all non-empty strings. On `("0", "-1")` the
code parses the segment `"-1"` to the number `-1` (it is not coerced to
`0`) and returns GREATER, while the claimed algorithm compares `0` with
`0` and returns EQUAL. -/
theorem c1_counterexample :
    compareVersions (some "0") (some "-1") = 1
    ∧ specCompareVersions "0" "-1" = 0 := by decide

/-- C1 (amended): for non-empty version strings all of whose dot-separated
segments are plain decimal digit sequences (possibly empty, standing for
`0`) of at most fifteen digits, `compareVersions` computes exactly the
specified algorithm: split on `.`, take each segment's numeric value,
compare segment-by-segment left to right up to the longer length with
missing segments treated as `0`, the first differing pair deciding
GREATER/LESS and EQUAL otherwise. In particular
`compare("1.10.0","1.2.0") = GREATER` and `compare("2.0","2") = EQUAL`.
The digit bound keeps every segment value below `10 ^ 15 < 2 ^ 53`, the
range on which an IEEE-754 double represents integers exactly, so on this
domain the model's exact values coincide with the program's doubles;
beyond it the program's rounding diverges from exact comparison
(e.g. JavaScript compares the seventeen-digit `"9007199254740993"` and
`"9007199254740992"` as equal). -/
theorem c1_segment_algorithm (a b : String) (ha : a ≠ "") (hb : b ≠ "")
    (hsa : ∀ s ∈ splitDot a.data, s.all Char.isDigit ∧ s.length ≤ 15)
    (hsb : ∀ s ∈ splitDot b.data, s.all Char.isDigit ∧ s.length ≤ 15) :
    compareVersions (some a) (some b) = specCompareVersions a b := by
  have hta : strTruthy (some a) = true := by simp [strTruthy, ha]
  have htb : strTruthy (some b) = true := by simp [strTruthy, hb]
  unfold compareVersions specCompareVersions
  rw [hta, htb]
  simp only [Bool.not_true, Bool.or_self, if_false, Option.getD_some]
  rw [segNums_digits a (fun s hs => (hsa s hs).1), segNums_digits b (fun s hs => (hsb s hs).1)]
  simp only [List.length_map]
  exact jsCmpLoop_map_fin _ _ _

/-- C1, witness: the two concrete comparisons the claim names, through
`c1_segment_algorithm`. -/
theorem c1_witness :
    compareVersions (some "1.10.0") (some "1.2.0") = 1
    ∧ compareVersions (some "2.0") (some "2") = 0 :=
  ⟨(c1_segment_algorithm "1.10.0" "1.2.0" (by decide) (by decide) (by decide)
      (by decide)).trans (by decide),
   (c1_segment_algorithm "2.0" "2" (by decide) (by decide) (by decide)
      (by decide)).trans (by decide)⟩

/-- C2: the claim (a failed upload leaves the two stores mutually
consistent) is what the specification requires, and the code violates it.
With `firmware.bin` holding the two bytes `[9, 9]` and `version.json`
recording size `2`, a `POST /update` carrying the three-byte payload
`[1, 2, 3]` but no version string fails with MissingVersion — yet the
multer disk storage has already overwritten `firmware.bin`, so afterwards
the version record (size `2`) is not backed by the blob (length `3`). -/
theorem c2_failed_upload_unbacked :
    handleUpdate "2026-02-03T00:00:00.000Z" ⟨some [9, 9], ⟨"1.0.0", none, some 2⟩⟩
        (some [1, 2, 3]) none
      = (⟨some [1, 2, 3], ⟨"1.0.0", none, some 2⟩⟩, UpdateResult.errMissingVersion)
    ∧ sizeConsistent ⟨some [9, 9], ⟨"1.0.0", none, some 2⟩⟩ = true
    ∧ sizeConsistent ⟨some [1, 2, 3], ⟨"1.0.0", none, some 2⟩⟩ = false := by decide

/-- C3: the claim (replacement goes through a temporary location and an
atomic rename, so a racing read sees either the complete old or the
complete new content, never a length between the two declared sizes) is
what the specification requires, and the code violates it: the upload
stream is written in place over `firmware/firmware.bin`. Replacing the
two-byte blob `[1, 2]` by the four-byte blob `[3, 4, 5, 6]` arriving in
chunks `[3, 4, 5]` and `[6]`, the file passes through the observable
content `[3, 4, 5]`, whose length `3` is neither declared size. -/
theorem c3_torn_read_window :
    [3, 4, 5] ∈ replaceStates [1, 2] [[3, 4, 5], [6]]
    ∧ ¬ (∀ s ∈ replaceStates [1, 2] [[3, 4, 5], [6]],
          s.length = ([1, 2] : List ℕ).length
          ∨ s.length = ([[3, 4, 5], [6]] : List (List ℕ)).flatten.length) := by decide

/-- C4, counterexample: the comparator does not signal a distinct
indeterminate result on an empty input — `compareVersions("", "1.0.0")`
returns `0`, the very value that means EQUAL (the value returned for
`("1.0.0", "1.0.0")`). -/
theorem c4_counterexample :
    compareVersions (some "") (some "1.0.0") = 0
    ∧ compareVersions (some "1.0.0") (some "1.0.0") = 0 := by decide

/-- C4 (amended): when either input is empty or absent, `compareVersions`
returns `0` — the same value as EQUAL, not a distinct indeterminate — and
since the check endpoint computes `updateAvailable` as `result > 0`, an
empty or absent device version still yields `updateAvailable = false`
(the fail-closed outcome holds). -/
theorem c4_fail_closed (s : String) (q h : Option String)
    (hq : strTruthy q = false) (hh : strTruthy h = false) :
    compareVersions (some "") (some s) = 0
    ∧ compareVersions (some s) (jsOr q h) = 0
    ∧ (checkHandler s q h).updateAvailable = false := by
  have h2 : compareVersions (some s) (jsOr q h) = 0 := by
    apply compareVersions_falsyRight
    rw [jsOr_falsy q h hq]
    exact hh
  refine ⟨by unfold compareVersions; simp [strTruthy], h2, ?_⟩
  show decide (compareVersions (some s) (jsOr q h) > 0) = false
  rw [h2]
  rfl

/-- C4, witness: an empty `version` query parameter and no header, against
stored version `"1.0.0"`, through `c4_fail_closed`. -/
theorem c4_witness :
    compareVersions (some "") (some "1.0.0") = 0
    ∧ compareVersions (some "1.0.0") (jsOr (some "") none) = 0
    ∧ (checkHandler "1.0.0" (some "") none).updateAvailable = false :=
  c4_fail_closed "1.0.0" (some "") none (by decide) rfl

/-- C5: on every successful check, `updateAvailable` is true exactly when
the comparator finds the stored server version GREATER than the resolved
device version, and the response echoes the device version as
`currentVersion` and the stored version as `latestVersion` regardless of
the outcome. -/
theorem c5_check_semantics (s : String) (q h : Option String) :
    ((checkHandler s q h).updateAvailable = true ↔ compareVersions (some s) (jsOr q h) = 1)
    ∧ (checkHandler s q h).currentVersion = jsOr q h
    ∧ (checkHandler s q h).latestVersion = s := by
  refine ⟨?_, rfl, rfl⟩
  show decide (compareVersions (some s) (jsOr q h) > 0) = true ↔ _
  rw [decide_eq_true_iff]
  exact pos_iff_one _ (compareVersions_tri _ _)

/-- C5, witness: stored `"1.0.1"` against device `"1.0.0"` reports an
update, through `c5_check_semantics`. -/
theorem c5_witness :
    (checkHandler "1.0.1" (some "1.0.0") none).updateAvailable = true :=
  (c5_check_semantics "1.0.1" (some "1.0.0") none).1.mpr (by decide)

/-- C6: a successful upload of `n` bytes with non-empty version `v`
replaces the blob with the uploaded bytes and then replaces the version
record with `{version: v, updatedAt: now, size: n}`, the response reports
success with `v` and `n`, and a subsequent version read returns exactly
that record (round-trip). -/
theorem c6_upload_roundtrip (now : String) (st : ServerState) (bytes : List ℕ) (v : String)
    (hv : v ≠ "") :
    handleUpdate now st (some bytes) (some v)
      = ({ firmwareBin := some bytes, versionRec := ⟨v, some now, some bytes.length⟩ },
         UpdateResult.ok v bytes.length)
    ∧ versionHandler (handleUpdate now st (some bytes) (some v)).1
        = ⟨v, some now, some bytes.length⟩
    ∧ (versionHandler (handleUpdate now st (some bytes) (some v)).1).version = v
    ∧ (versionHandler (handleUpdate now st (some bytes) (some v)).1).size = some bytes.length := by
  have ht : strTruthy (some v) = true := by simp [strTruthy, hv]
  have h1 : handleUpdate now st (some bytes) (some v)
      = ({ firmwareBin := some bytes, versionRec := ⟨v, some now, some bytes.length⟩ },
         UpdateResult.ok v bytes.length) := by
    simp [handleUpdate, ht]
  refine ⟨h1, ?_, ?_, ?_⟩ <;> rw [h1] <;> rfl

/-- C6, witness: uploading the three bytes `[7, 7, 7]` as version
`"2.0.0"` into the bootstrap state, through `c6_upload_roundtrip`. -/
theorem c6_witness :
    handleUpdate "2026-02-03T00:00:00.000Z" bootState (some [7, 7, 7]) (some "2.0.0")
      = ({ firmwareBin := some [7, 7, 7],
           versionRec := ⟨"2.0.0", some "2026-02-03T00:00:00.000Z", some 3⟩ },
         UpdateResult.ok "2.0.0" 3) :=
  (c6_upload_roundtrip "2026-02-03T00:00:00.000Z" bootState [7, 7, 7] "2.0.0" (by decide)).1

/-- C7: a firmware download with no blob present fails with NotFound
(404); with a blob present the response carries a content length equal to
the blob's byte size, a content disposition naming `firmware.bin`, and an
`x-MD5` header equal to the MD5 hex digest of the exact full blob, then
the full blob as body; and after a successful upload the served blob and
digest are those of the uploaded bytes. -/
theorem c7_firmware_download (st : ServerState) :
    (st.firmwareBin = none → firmwareHandler st = FirmwareResponse.notFound)
    ∧ (∀ bytes, st.firmwareBin = some bytes →
        firmwareHandler st
          = FirmwareResponse.ok bytes.length "attachment; filename=firmware.bin"
              (getMD5 bytes) bytes)
    ∧ (∀ now bytes v, v ≠ "" →
        firmwareHandler (handleUpdate now st (some bytes) (some v)).1
          = FirmwareResponse.ok bytes.length "attachment; filename=firmware.bin"
              (getMD5 bytes) bytes) := by
  refine ⟨?_, ?_, ?_⟩
  · intro h
    unfold firmwareHandler
    rw [h]
  · intro bytes h
    unfold firmwareHandler
    rw [h]
  · intro now bytes v hv
    have ht : strTruthy (some v) = true := by simp [strTruthy, hv]
    simp [handleUpdate, ht, firmwareHandler]

/-- C7, witness: the bootstrap state has no blob and yields NotFound; the
state holding blob `[1, 2, 3]` yields the full headers and body, through
`c7_firmware_download`. -/
theorem c7_witness :
    firmwareHandler bootState = FirmwareResponse.notFound
    ∧ firmwareHandler ⟨some [1, 2, 3], ⟨"1.0.0", none, some 3⟩⟩
        = FirmwareResponse.ok 3 "attachment; filename=firmware.bin" (getMD5 [1, 2, 3]) [1, 2, 3] :=
  ⟨(c7_firmware_download bootState).1 rfl,
   (c7_firmware_download ⟨some [1, 2, 3], ⟨"1.0.0", none, some 3⟩⟩).2.1 [1, 2, 3] rfl⟩

/-- C8: the comparator is antisymmetric — GREATER on `(a, b)` forces LESS
on `(b, a)` and conversely — and reflexive: `compareVersions(a, a)` is
EQUAL for every string `a`. -/
theorem c8_comparator_antisymmetry (a b : String) :
    (compareVersions (some a) (some b) = 1 → compareVersions (some b) (some a) = -1)
    ∧ (compareVersions (some a) (some b) = -1 → compareVersions (some b) (some a) = 1)
    ∧ compareVersions (some a) (some a) = 0 := by
  refine ⟨?_, ?_, compareVersions_refl _⟩
  · intro h
    rw [compareVersions_neg (some b) (some a), h]
  · intro h
    rw [compareVersions_neg (some b) (some a), h]
    rfl

/-- C8, witness: the pair `("1.1", "1.0")`, through
`c8_comparator_antisymmetry`. -/
theorem c8_witness :
    compareVersions (some "1.1") (some "1.0") = 1
    ∧ compareVersions (some "1.0") (some "1.1") = -1 :=
  ⟨by decide, (c8_comparator_antisymmetry "1.1" "1.0").1 (by decide)⟩

/-- C9: `compareVersions` is total on arbitrary strings — non-numeric
segments, empty segments, differing arities included — and always returns
exactly one of GREATER (`1`), EQUAL (`0`), LESS (`-1`). -/
theorem c9_comparator_total (a b : String) :
    compareVersions (some a) (some b) = 1 ∨ compareVersions (some a) (some b) = 0
    ∨ compareVersions (some a) (some b) = -1 :=
  compareVersions_tri _ _

/-- C10, counterexample: with the `version` query parameter present but
empty and the `x-esp8266-version` header present but empty, the device
version is the empty string — a defined value — not `undefined` as the
claim states. -/
theorem c10_counterexample :
    (checkHandler "1.0.0" (some "") (some "")).currentVersion = some ""
    ∧ (checkHandler "1.0.0" (some "") (some "")).currentVersion ≠ none := by decide

/-- C10 (amended): the device version is the `version` query parameter
exactly when that parameter is a non-empty string; otherwise it is the
`x-esp8266-version` header value (possibly the empty string, or absent);
and when both are empty or absent the response reports
`updateAvailable = false`. -/
theorem c10_device_version_resolution (s : String) (q h : Option String) :
    (strTruthy q = true → (checkHandler s q h).currentVersion = q)
    ∧ (strTruthy q = false → (checkHandler s q h).currentVersion = h)
    ∧ (strTruthy q = false → strTruthy h = false →
        (checkHandler s q h).updateAvailable = false) := by
  refine ⟨?_, ?_, ?_⟩
  · intro hq
    show jsOr q h = q
    exact jsOr_truthy q h hq
  · intro hq
    show jsOr q h = h
    exact jsOr_falsy q h hq
  · intro hq hh
    show decide (compareVersions (some s) (jsOr q h) > 0) = false
    rw [compareVersions_falsyRight _ _ (by rw [jsOr_falsy q h hq]; exact hh)]
    rfl

/-- C10, witness: a non-empty query parameter is used; with neither source
present the check fails closed — through `c10_device_version_resolution`. -/
theorem c10_witness :
    (checkHandler "2.0.0" (some "1.0.0") none).currentVersion = some "1.0.0"
    ∧ (checkHandler "2.0.0" none none).updateAvailable = false :=
  ⟨(c10_device_version_resolution "2.0.0" (some "1.0.0") none).1 (by decide),
   (c10_device_version_resolution "2.0.0" none none).2.2 rfl rfl⟩
